import Mathlib

/-!
Shallow embedding of `ntfs/filesystem/__init__.py` (python-ntfs).

The definitions below translate the Python source line by line: pure byte
arithmetic uses `Nat`/`Int` with Python-2 semantics made explicit
(floor division on non-negative operands, Python slice clamping, negative
index adjustment), and code that raises exceptions returns `Except Err`.
Layers that are outside `src/` (the raw volume buffer, the declarative
field parser of `ntfs.BinaryParser`, and the record/attribute parsers of
`ntfs.mft.MFT`) are modelled from the spec and are marked as such in
their doc comments.
-/

set_option autoImplicit false

set_option maxRecDepth 4000

/-- Error kinds of the library.  `overrun` is `OverrunBufferException`
(raised by the out-of-scope buffer layers), `indexErr` is Python's builtin
`IndexError`, `assertionFailed` is Python's builtin `AssertionError`,
`corrupt` is `CorruptNTFSFilesystemError`, and the remaining constructors
are the exception classes declared in `ntfs/filesystem/__init__.py` and
`ntfs.mft.MFT`. -/

inductive Err where
  | overrun
  | indexErr
  | assertionFailed
  | corrupt
  | attributeNotFound
  | invalidRecord
  | noParent
  | childNotFound
  | unsupportedPath
  | dirDoesNotExist
  deriving DecidableEq, Repr

instance {α : Type} [DecidableEq α] : DecidableEq (Except Err α) := by
  intro a b
  cases a <;> cases b
  case error.error e f => exact decidable_of_iff (e = f) (by constructor <;> (intro h; cases h; rfl) )
  case ok.ok x y => exact decidable_of_iff (x = y) (by constructor <;> (intro h; cases h; rfl))
  all_goals exact isFalse (by intro h; cases h)

/-- Bytes are modelled as natural numbers (Python 2 `str` elements). -/

abbrev Byte := Nat

/-- Python 2 strings are byte strings; we model them as lists of bytes. -/

abbrev Str := List Nat

/-- The abstract random-access volume: a byte length together with the byte
stored at each offset. -/

structure Volume where
  len : Nat
  byteAt : Nat → Byte

/-- Modelled from the spec: the raw volume access layer is out of scope in
the source ("treated as an abstract byte-addressable buffer") and the spec
assigns it the contract "out-of-range cluster → `Overrun`".  A read of the
byte range `[start, stop)` succeeds exactly when the range lies inside the
volume. -/

def volRead (v : Volume) (start stop : Int) : Except Err (List Byte) :=
  if 0 ≤ start ∧ start ≤ stop ∧ stop ≤ (v.len : Int) then
    .ok ((List.range (stop - start).toNat).map (fun k => v.byteAt (start.toNat + k)))
  else
    .error .overrun

/-- Source class `ClusterAccessor`: indexes volume data in `cluster_size`
units. -/

structure ClusterAccessor where
  vol : Volume
  csize : Nat

/-- Method `ClusterAccessor.__getitem__`: `self._volume[index*size : (index+1)*size]`. -/

def ClusterAccessor.getCluster (ca : ClusterAccessor) (index : Int) : Except Err (List Byte) :=
  volRead ca.vol (index * ca.csize) ((index + 1) * ca.csize)

/-- Method `ClusterAccessor.__getslice__`: `self._volume[start*size : end*size]`. -/

def ClusterAccessor.getClusters (ca : ClusterAccessor) (start stop : Int) : Except Err (List Byte) :=
  volRead ca.vol (start * ca.csize) (stop * ca.csize)

/-- Python 2 `sys.maxint` on a 64-bit build. -/

def pyMaxint : Int := 2 ^ 63 - 1

/-- Clamp one Python slice bound against a sequence length: negative bounds
have the length added (floored at 0), non-negative bounds are capped at the
length. -/

def pySliceIdx (len : Nat) (i : Int) : Nat :=
  if i < 0 then ((len : Int) + i).toNat else min i.toNat len

/-- Python slice `xs[a:b]` (on a materialised byte string). -/

def pySlice (xs : List Byte) (a b : Int) : List Byte :=
  let lo := pySliceIdx xs.length a
  let hi := pySliceIdx xs.length b
  (xs.drop lo).take (hi - lo)

/-- Python slice `xs[a:b]` where either bound may be `None`
(`xs[None:b] == xs[:b]`, `xs[a:None] == xs[a:]`). -/

def pySliceOpt (xs : List Byte) (a b : Option Int) : List Byte :=
  let lo := match a with | none => 0 | some i => pySliceIdx xs.length i
  let hi := match b with | none => xs.length | some i => pySliceIdx xs.length i
  (xs.drop lo).take (hi - lo)

/-- Python `int(math.ceil(float(a)/b))` for an integer `a` and positive `b`. -/

def ceilDivInt (a : Int) (b : Nat) : Int :=
  if 0 ≤ a then ((a.toNat + b - 1) / b : Nat) else -(((-a).toNat / b : Nat))

/-- Source class `NonResidentAttributeData`: exposes a runlist (list of
`(cluster_offset, num_clusters)` run entries) over a cluster accessor as a
single logical buffer. -/

structure NonResidentAttributeData where
  clusters : ClusterAccessor
  runentries : List (Nat × Nat)

namespace NonResidentAttributeData

/-- Method `__len__`: the sum of `num_clusters * cluster_size` over the run
entries (the source caches this value; the cache is behaviourally
transparent). -/

def length (v : NonResidentAttributeData) : Nat :=
  v.runentries.foldl (fun acc r => acc + r.2 * v.clusters.csize) 0

/-- The run-scanning loop of `__getitem__`, with `cur` playing the role of
`current_run_start_offset`.  Falling off the end of the runlist raises
`IndexError` ("%d is greater than the non resident attribute data length"). -/

def giLoop (ca : ClusterAccessor) (idx : Int) : List (Nat × Nat) → Nat → Except Err Byte
  | [], _ => .error .indexErr
  | (co, nc) :: rest, cur =>
    let runLen := nc * ca.csize
    let rightBorder := cur + runLen
    if (cur : Int) ≤ idx ∧ idx < (rightBorder : Int) then
      let target := (idx - cur).toNat
      let targetClusterIdx := target / ca.csize
      let byteRelativeIdx := target - targetClusterIdx * ca.csize
      match ca.getCluster ((co : Int) + targetClusterIdx) with
      | .error e => .error e
      | .ok cluster =>
        match cluster[byteRelativeIdx]? with
        | some b => .ok b
        | none => .error .indexErr
    else
      giLoop ca idx rest rightBorder

/-- Method `__getitem__(index)`: point read of one byte of the logical buffer. -/

def getItem (v : NonResidentAttributeData) (index : Int) : Except Err Byte :=
  let idx := if index < 0 then (v.length : Int) + index else index
  giLoop v.clusters idx v.runentries 0

/-- The run loop of `__getslice__`: `vbo` is `virt_byte_offset`, `found` is
`have_found_start`, `acc` is the accumulating `ret` bytearray. -/

def gsLoop (ca : ClusterAccessor) (start stop : Int) :
    List (Nat × Nat) → Nat → Bool → List Byte → Except Err (List Byte)
  | [], _, _, acc => .ok acc
  | (co, nc) :: rest, vbo, found, acc =>
    let runByteLen := nc * ca.csize
    let virtByteStop := vbo + runByteLen
    let isStartInRun := (vbo : Int) ≤ start ∧ start < (virtByteStop : Int)
    if ¬found ∧ ¬isStartInRun then
      gsLoop ca start stop rest virtByteStop found acc
    else
      let isStopInRun := stop ≤ (virtByteStop : Int)
      if isStartInRun ∧ isStopInRun then
        -- single-run early return:
        --   _start, _stop are run-relative; whole clusters are read and
        --   trimmed using the byte offset of the cluster containing `start`
        let s := (start - vbo).toNat
        let cstart := s / ca.csize
        let cstop := ceilDivInt (stop - vbo) ca.csize
        match ca.getClusters ((co : Int) + cstart) ((co : Int) + cstop) with
        | .error e => .error e
        | .ok bs =>
          let rbyteOffset := (start.toNat / ca.csize) * ca.csize
          .ok (pySlice bs (start - rbyteOffset) (stop - rbyteOffset))
      else
        match ca.getClusters (co : Int) ((co : Int) + nc) with
        | .error e => .error e
        | .ok bs =>
          let s := if isStartInRun then some (start - vbo) else (none : Option Int)
          let t := if isStopInRun then some (stop - vbo) else (none : Option Int)
          gsLoop ca start stop rest virtByteStop true (acc ++ pySliceOpt bs s t)

/-- Method `__getslice__(start, stop)`: half-open byte slice of the logical
buffer.  Mirrors the source's bound handling order: `sys.maxint` stop, then
negative stop, then negative start, then the range check. -/

def getSlice (v : NonResidentAttributeData) (start stop : Int) : Except Err (List Byte) :=
  let L := v.length
  let stop1 := if stop = pyMaxint then (L : Int) else stop
  let stop2 := if stop1 < 0 then (L : Int) + stop1 else stop1
  let start2 := if start < 0 then (L : Int) + start else start
  if max start2 stop2 > (L : Int) then
    .error .indexErr
  else
    gsLoop v.clusters start2 stop2 v.runentries 0 false []

end NonResidentAttributeData

/-! ## Filesystem construction (`NTFSFilesystem.__init__`) -/

/-- The read `oem_id = volume[3:7]` (Python slice clamping on short volumes). -/

def oemId (vol : Volume) : List Byte :=
  let lo := min 3 vol.len
  let hi := min 7 vol.len
  (List.range (hi - lo)).map (fun k => vol.byteAt (lo + k))

/-- The ASCII bytes of `"NTFS"`. -/

def ntfsBytes : List Byte := [78, 84, 70, 83]

/-- Modelled from the spec: the declarative field parser
(`ntfs.BinaryParser`) backing `NTFSVBR` is out of scope; the decoded
fields the constructor reads are supplied directly. -/

structure NTFSVBR where
  bytes_per_sector : Nat
  sectors_per_cluster : Nat
  mft_lcn : Nat
  mftmirr_lcn : Nat

/-- Modelled from the spec: `MFTRecord` / `data_attribute()` / `runlist()`
(`ntfs.mft.MFT`, not under `src/`) turn a chunk of bytes into the runlist
of the record's $DATA attribute, or fail. -/

abbrev RecordRunlistParse := List Byte → Except Err (List (Nat × Nat))

/-- Method `NTFSFilesystem.get_mft_buffer`: read the cluster at `mft_lcn`, parse
record 0's $DATA runlist, wrap it in a `NonResidentAttributeData`. -/

def getMftBuffer (vol : Volume) (cs : Nat) (vbr : NTFSVBR) (parse : RecordRunlistParse) :
    Except Err NonResidentAttributeData := do
  let chunk ← ClusterAccessor.getCluster ⟨vol, cs⟩ vbr.mft_lcn
  let runs ← parse chunk
  pure ⟨⟨vol, cs⟩, runs⟩

/-- Method `NTFSFilesystem.get_mftmirr_buffer`: same shape at `mftmirr_lcn` (the
1024-byte record offset within the chunk lives inside the parse). -/

def getMftMirrBuffer (vol : Volume) (cs : Nat) (vbr : NTFSVBR) (parse : RecordRunlistParse) :
    Except Err NonResidentAttributeData := do
  let chunk ← ClusterAccessor.getCluster ⟨vol, cs⟩ vbr.mftmirr_lcn
  let runs ← parse chunk
  pure ⟨⟨vol, cs⟩, runs⟩

/-- The body of each `try` block in the constructor:
`b = get_*_buffer(); _ = b[-1]` (probe the last byte to force full runlist
traversal). -/

def bootProbe (buf : Except Err NonResidentAttributeData) :
    Except Err NonResidentAttributeData :=
  match buf with
  | .error e => .error e
  | .ok b =>
    match b.getItem (-1) with
    | .error e => .error e
    | .ok _ => .ok b

/-- The `try/except OverrunBufferException` cascade of the constructor:
probe the MFT buffer; on `Overrun` fall back to the MFTMirr buffer; if that
also raises `Overrun`, `CorruptNTFSFilesystemError`.  Any other error
propagates unchanged. -/

def mftBootstrap (mft mirr : Except Err NonResidentAttributeData) :
    Except Err NonResidentAttributeData :=
  match bootProbe mft with
  | .error .overrun =>
    match bootProbe mirr with
    | .error .overrun => .error .corrupt
    | r => r
  | r => r

/-- Constant `MFT_RECORD_SIZE` (hardcoded 1024 bytes). -/

def MFT_RECORD_SIZE : Nat := 1024

def INODE_FIRST_USER : Nat := 16

/-- Modelled from the spec: `MFTEnumerator.get_record(n)` (`ntfs.mft.MFT`,
not under `src/`) — "returns record at offset `n · 1024` ... Fails
`Overrun` if beyond view"; the record decode itself (fixup, magic) is the
`recParse` parameter. -/

def getRecordProbe (b : NonResidentAttributeData) (n : Nat)
    (recParse : List Byte → Except Err Unit) : Except Err Unit :=
  if (n + 1) * MFT_RECORD_SIZE ≤ b.length then do
    let bs ← b.getSlice ((n * MFT_RECORD_SIZE : Nat) : Int) (((n + 1) * MFT_RECORD_SIZE : Nat) : Int)
    recParse bs
  else .error .overrun

/-- The filesystem facade state built by a successful construction. -/

structure NTFSFilesystem where
  clusters : ClusterAccessor
  mft_data : NonResidentAttributeData

/-- The tail of the constructor after a successful bootstrap: probe the
first user record (16); `Overrun` there becomes
`CorruptNTFSFilesystemError`, any other error propagates. -/

def initFinish (vol : Volume) (cs : Nat) (b : NonResidentAttributeData)
    (recParse : List Byte → Except Err Unit) : Except Err NTFSFilesystem :=
  match getRecordProbe b INODE_FIRST_USER recParse with
  | .error .overrun => .error .corrupt
  | .error e => .error e
  | .ok _ => .ok ⟨⟨vol, cs⟩, b⟩

/-- Constructor `NTFSFilesystem.__init__`: OEM assertion, cluster size, MFT bootstrap
with MFTMirr fallback, then the record-16 probe. -/

def ntfsInit (vol : Volume) (vbr : NTFSVBR) (parseMft parseMirr : RecordRunlistParse)
    (recParse : List Byte → Except Err Unit) (clusterSizeArg : Option Nat) :
    Except Err NTFSFilesystem :=
  if oemId vol ≠ ntfsBytes then .error .assertionFailed
  else
    let cs := clusterSizeArg.getD (vbr.bytes_per_sector * vbr.sectors_per_cluster)
    match mftBootstrap (getMftBuffer vol cs vbr parseMft) (getMftMirrBuffer vol cs vbr parseMirr) with
    | .error e => .error e
    | .ok b => initFinish vol cs b recParse

/-! ## Directory children (`NTFSFilesystem.get_record_children`) -/

/-- One index entry as yielded by the (out-of-scope) `ntfs.mft.MFT` index
parsers: its MFT reference (`MREF`, low 48 bits) and the entry's filename. -/

structure IndexEntry where
  ref : Nat
  fname : Str
  deriving DecidableEq, Repr

/-- A directory MFT record as far as `get_record_children` consumes it.
Modelled from the spec for the parts parsed by `ntfs.mft.MFT` (not under
`src/`): `indexAlloc` is `some blocks` when the record has an
$INDEX_ALLOCATION attribute, giving each block's `entries()`; likewise
`indexRoot` for $INDEX_ROOT.  `record.attribute(t)` raises
`AttributeNotFoundError` exactly when the field is `none`. -/

structure DirRecord where
  isDir : Bool
  indexAlloc : Option (List (List IndexEntry))
  indexRoot : Option (List IndexEntry)

def INODE_ROOT : Nat := 5

/-- Python dict assignment `ret[ref] = v` on an insertion-ordered
association list. -/

def dictInsert (m : List (Nat × Nat)) (k v : Nat) : List (Nat × Nat) :=
  if m.any (fun p => p.1 == k) then m.map (fun p => if p.1 = k then (k, v) else p)
  else m ++ [(k, v)]

/-- The shared entry loop: skip the root self-reference (ref 5 named "."),
otherwise `ret[ref] = self._enumerator.get_record(ref)`; `recOf` stands
for the (out-of-scope) record read, taken here to succeed. -/

def insertEntries (recOf : Nat → Nat) : List IndexEntry → List (Nat × Nat) → List (Nat × Nat)
  | [], acc => acc
  | e :: rest, acc =>
    if e.ref = INODE_ROOT ∧ e.fname = [46] then insertEntries recOf rest acc
    else insertEntries recOf rest (dictInsert acc e.ref (recOf e.ref))

/-- Method `NTFSFilesystem.get_record_children`: non-directories yield no
children; otherwise the `try` branch parses $INDEX_ALLOCATION, and only
the `except AttributeNotFoundError` branch parses $INDEX_ROOT; a record
with neither attribute propagates `AttributeNotFoundError`. -/

def get_record_children (recOf : Nat → Nat) (record : DirRecord) :
    Except Err (List (Nat × Nat)) :=
  if ¬record.isDir then .ok []
  else
    match record.indexAlloc with
    | some blocks => .ok (insertEntries recOf blocks.flatten [])
    | none =>
      match record.indexRoot with
      | some entries => .ok (insertEntries recOf entries [])
      | none => .error .attributeNotFound

/-! ## Directory handles (`NTFSDirectory`) -/

/-- An abstract resolved directory entry: an identifying tag, whether it is
a directory (`NTFSDirectory` vs `NTFSFile` wrapper), all of its
$FILE_NAME filenames, and (for directories) its children. -/

inductive NEntry : Type where
  | ent (tag : Nat) (isDir : Bool) (filenames : List Str) (children : List NEntry)

def NEntry.tag : NEntry → Nat
  | .ent t _ _ _ => t

def NEntry.isDir : NEntry → Bool
  | .ent _ d _ _ => d

def NEntry.filenames : NEntry → List Str
  | .ent _ _ f _ => f

def NEntry.children : NEntry → List NEntry
  | .ent _ _ _ c => c

/-- Python 2 `str.lower()` on one byte (ASCII). -/

def pyLowerByte (b : Nat) : Nat := if 65 ≤ b ∧ b ≤ 90 then b + 32 else b

/-- Python 2 `str.upper()` on one byte (ASCII). -/

def pyUpperByte (b : Nat) : Nat := if 97 ≤ b ∧ b ≤ 122 then b - 32 else b

def strLower (s : Str) : Str := s.map pyLowerByte

def strUpper (s : Str) : Str := s.map pyUpperByte

/-- Method `NTFSDirectory.get_child(name)`: lowercase the name once, scan the
children in order, and return the first child one of whose filenames
lowercases to it; otherwise `ChildNotFoundError`. -/

def get_child (children : List NEntry) (name : Str) : Except Err NEntry :=
  let nameLower := strLower name
  match children.find? (fun c => c.filenames.any (fun fn => strLower fn == nameLower)) with
  | some c => .ok c
  | none => .error .childNotFound

/-- Python `str.partition(sep)` for a single-byte separator: split at the
first occurrence; `(s, "", "")` when absent. -/

def pyPartition (s : Str) (sep : Nat) : Str × Str × Str :=
  match s with
  | [] => ([], [], [])
  | c :: rest =>
    if c = sep then ([], [sep], rest)
    else
      let p := pyPartition rest sep
      (c :: p.1, p.2.1, p.2.2)

def FORWARD_SLASH : Nat := 47

def BACKSLASH : Nat := 92

/-- Method `NTFSDirectory._split_path`: backslash wins if present (mixing with a
forward slash is `UnsupportedPathError`), else forward slash, else no
separator. -/

def split_path (path : Str) : Except Err (Str × Str × Str) :=
  if BACKSLASH ∈ path then
    if FORWARD_SLASH ∈ path then .error .unsupportedPath
    else .ok (pyPartition path BACKSLASH)
  else if FORWARD_SLASH ∈ path then
    if BACKSLASH ∈ path then .error .unsupportedPath
    else .ok (pyPartition path FORWARD_SLASH)
  else .ok (path, [], [])

/-- The recursion of `NTFSDirectory.get_path_entry`, with explicit fuel:
the Python recursion terminates because the remainder after a separator is
strictly shorter, and `get_path_entry` below supplies enough fuel for the
zero-fuel branch to be unreachable. -/

def gpeGo (fuel : Nat) (d : NEntry) (path : Str) : Except Err NEntry :=
  match fuel with
  | 0 => .error .childNotFound
  | fuel + 1 =>
    match split_path path with
    | .error e => .error e
    | .ok (_imm, slash, rest) =>
      if slash = [] then get_child d.children path
      else if rest = [] then .ok d
      else
        match get_child d.children _imm with
        | .error e => .error e
        | .ok child =>
          if child.isDir then gpeGo fuel child rest
          else .error .dirDoesNotExist

/-- Method `NTFSDirectory.get_path_entry(path)`. -/

def get_path_entry (d : NEntry) (path : Str) : Except Err NEntry :=
  gpeGo (path.length + 1) d path

/-! ## Helper lemmas about the non-resident data view -/

/-- Total byte length contributed by a runlist. -/

def runsLen (cs : Nat) (runs : List (Nat × Nat)) : Nat :=
  (runs.map (fun r => r.2 * cs)).sum

/-- The physical volume offset backing virtual byte position `p` of a
runlist (mathematical specification used to state correctness lemmas). -/

def virtOff (cs : Nat) : List (Nat × Nat) → Nat → Nat
  | [], _ => 0
  | (co, nc) :: rest, p => if p < nc * cs then co * cs + p else virtOff cs rest (p - nc * cs)

/-- Every run's clusters lie inside the volume. -/

def RunsInBounds (ca : ClusterAccessor) (runs : List (Nat × Nat)) : Prop :=
  ∀ r ∈ runs, (r.1 + r.2) * ca.csize ≤ ca.vol.len

instance (ca : ClusterAccessor) (runs : List (Nat × Nat)) : Decidable (RunsInBounds ca runs) :=
  inferInstanceAs (Decidable (∀ r ∈ runs, (r.1 + r.2) * ca.csize ≤ ca.vol.len))

/-! ## Concrete fixtures -/

/-- A concrete volume large enough for clusters 10 and 20 at cluster size
4096 (byte at offset `i` is `i % 251`). -/

def vol3 : Volume := ⟨90112, fun i => i % 251⟩

def ca3 : ClusterAccessor := ⟨vol3, 4096⟩

/-- The spec's scenario-3 view: cluster size 4096, runlist
`[(lcn=10, len=1), (lcn=20, len=1)]`. -/

def v3 : NonResidentAttributeData := ⟨ca3, [(10, 1), (20, 1)]⟩

/-- A small volume (16 bytes, byte `i` is `i`) and a three-run view with
cluster size 4, used to exhibit behaviour on runs past the slice stop. -/

def vol6 : Volume := ⟨16, fun i => i⟩

def v6 : NonResidentAttributeData := ⟨⟨vol6, 4⟩, [(1, 1), (2, 1), (3, 1)]⟩



/-- A 40-byte volume carrying "NTFS" at offsets 3..6 (byte `i` is `i % 256`
elsewhere). -/

def volW : Volume :=
  ⟨40, fun i => if i = 3 then 78 else if i = 4 then 84 else if i = 5 then 70
    else if i = 6 then 83 else i % 256⟩

/-- VBR fields: 2-byte sectors, 2 sectors per cluster (cluster size 4),
$MFT at cluster 1, $MFTMirr at cluster 2. -/

def vbrW : NTFSVBR := ⟨2, 2, 1, 2⟩

/-- A record parse whose $DATA runlist points past the end of `volW`. -/

def parseBad : RecordRunlistParse := fun _ => .ok [(100, 1)]

/-- A record parse whose $DATA runlist stays inside `volW`. -/

def parseGood : RecordRunlistParse := fun _ => .ok [(0, 5)]

def recParseOk : List Byte → Except Err Unit := fun _ => .ok ()

def bBad : NonResidentAttributeData := ⟨⟨volW, 4⟩, [(100, 1)]⟩

def bGood : NonResidentAttributeData := ⟨⟨volW, 4⟩, [(0, 5)]⟩

/-- A 512-byte volume of zero bytes: offsets 3..7 do not spell "NTFS". -/

def volBad : Volume := ⟨512, fun _ => 0⟩


/-- The concrete directory record for C1: $INDEX_ALLOCATION has one entry
for record 7 and $INDEX_ROOT has one entry for record 8. -/

def dirEx : DirRecord := ⟨true, some [[⟨7, [97]⟩]], some [⟨8, [98]⟩]⟩


/-- The two children for the C7 counterexample: distinct entries whose
single filenames "a" and "A" collide case-insensitively. -/

def e1C7 : NEntry := .ent 1 false [[97]] []

def e2C7 : NEntry := .ent 2 false [[65]] []


/-- A path made of components joined by a single-byte separator. -/

def joinSep (sep : Nat) : List Str → Str
  | [] => []
  | [c] => c
  | c :: c2 :: rest => c ++ sep :: joinSep sep (c2 :: rest)

/-- Entries of a small concrete tree: a root holding the directory "a"
(tag 2), which holds the file "b" (tag 3). -/

def dLeaf : NEntry := .ent 3 false [[98]] []

def dMid : NEntry := .ent 2 true [[97]] [dLeaf]

def dTop : NEntry := .ent 1 true [] [dMid]

/-- A directory whose only child is the file "a": no child has an empty
filename. -/

def dEx9 : NEntry := .ent 0 true [[97]] [.ent 1 false [[97]] []]

lemma foldl_add_sum (f : Nat × Nat → Nat) (l : List (Nat × Nat)) (init : Nat) :
    l.foldl (fun acc r => acc + f r) init = init + (l.map f).sum := by
  induction l generalizing init with
  | nil => simp
  | cons r rs ih => simp [ih, Nat.add_assoc]

lemma length_eq_runsLen (v : NonResidentAttributeData) :
    v.length = runsLen v.clusters.csize v.runentries := by
  unfold NonResidentAttributeData.length runsLen
  rw [foldl_add_sum (fun r => r.2 * v.clusters.csize)]
  simp

lemma getClusters_ok (ca : ClusterAccessor) (a b : Nat) (hab : a ≤ b)
    (h : b * ca.csize ≤ ca.vol.len) :
    ca.getClusters (a : Int) (b : Int) =
      .ok ((List.range ((b - a) * ca.csize)).map (fun k => ca.vol.byteAt (a * ca.csize + k))) := by
  unfold ClusterAccessor.getClusters volRead
  rw [if_pos]
  · have h1 : ((a : Int) * ca.csize) = ((a * ca.csize : Nat) : Int) := by push_cast; ring
    have h2 : ((b : Int) * ca.csize) = ((b * ca.csize : Nat) : Int) := by push_cast; ring
    rw [h1, h2, Int.toNat_sub, Int.toNat_natCast]
    congr 1
    rw [Nat.sub_mul]
  · refine ⟨by positivity, ?_, ?_⟩
    · apply mul_le_mul_of_nonneg_right _ (by positivity)
      exact_mod_cast hab
    · exact_mod_cast h

lemma getCluster_ok (ca : ClusterAccessor) (i : Nat) (h : (i + 1) * ca.csize ≤ ca.vol.len) :
    ca.getCluster (i : Int) =
      .ok ((List.range ca.csize).map (fun k => ca.vol.byteAt (i * ca.csize + k))) := by
  unfold ClusterAccessor.getCluster
  have h1 : ((i : Int) + 1) = ((i + 1 : Nat) : Int) := by push_cast; ring
  rw [h1]
  have := getClusters_ok ca i (i + 1) (by omega) h
  unfold ClusterAccessor.getClusters at this
  rw [this]
  have h2 : i + 1 - i = 1 := by omega
  rw [h2, one_mul]

lemma runsLen_cons (cs co nc : Nat) (rest : List (Nat × Nat)) :
    runsLen cs ((co, nc) :: rest) = nc * cs + runsLen cs rest := by
  simp [runsLen]

lemma giLoop_oob (ca : ClusterAccessor) (runs : List (Nat × Nat)) (cur : Nat) (idx : Int)
    (h : idx < (cur : Int) ∨ ((cur + runsLen ca.csize runs : Nat) : Int) ≤ idx) :
    NonResidentAttributeData.giLoop ca idx runs cur = .error .indexErr := by
  induction runs generalizing cur with
  | nil => rfl
  | cons r rest ih =>
    obtain ⟨co, nc⟩ := r
    rw [runsLen_cons] at h
    simp only [NonResidentAttributeData.giLoop]
    rw [if_neg]
    · apply ih
      omega
    · omega

lemma giLoop_ok (ca : ClusterAccessor) (runs : List (Nat × Nat)) (cur p : Nat)
    (hcs : 0 < ca.csize) (hb : RunsInBounds ca runs) (hp : p < runsLen ca.csize runs) :
    NonResidentAttributeData.giLoop ca ((cur + p : Nat) : Int) runs cur =
      .ok (ca.vol.byteAt (virtOff ca.csize runs p)) := by
  induction runs generalizing cur p with
  | nil => simp [runsLen] at hp
  | cons r rest ih =>
    obtain ⟨co, nc⟩ := r
    rw [runsLen_cons] at hp
    simp only [NonResidentAttributeData.giLoop, virtOff]
    by_cases hcase : p < nc * ca.csize
    · rw [if_pos (by omega), if_pos hcase]
      have htarget : (((cur + p : Nat) : Int) - (cur : Nat)).toNat = p := by omega
      rw [htarget]
      have hidx : (co : Int) + ((p / ca.csize : Nat) : Int) = ((co + p / ca.csize : Nat) : Int) := by
        omega
      rw [hidx]
      have hdiv : p / ca.csize < nc := (Nat.div_lt_iff_lt_mul hcs).mpr hcase
      have hbd : (co + p / ca.csize + 1) * ca.csize ≤ ca.vol.len := by
        have hrun := hb (co, nc) (by simp)
        calc (co + p / ca.csize + 1) * ca.csize
            ≤ (co + nc) * ca.csize := by apply Nat.mul_le_mul_right; omega
          _ ≤ ca.vol.len := hrun
      simp only [getCluster_ok ca (co + p / ca.csize) hbd]
      have hmod : p - p / ca.csize * ca.csize = p % ca.csize := by
        rw [Nat.sub_eq_iff_eq_add (Nat.div_mul_le_self p ca.csize), Nat.add_comm]
        exact (Nat.div_add_mod' p ca.csize).symm
      rw [hmod]
      rw [List.getElem?_map, List.getElem?_range (Nat.mod_lt p hcs)]
      simp only [Option.map_some']
      congr 2
      have h1 := Nat.div_add_mod p ca.csize
      calc (co + p / ca.csize) * ca.csize + p % ca.csize
          = co * ca.csize + (ca.csize * (p / ca.csize) + p % ca.csize) := by ring
        _ = co * ca.csize + p := by rw [h1]
    · rw [if_neg (by omega), if_neg hcase]
      have harg : ((cur + p : Nat) : Int) =
          (((cur + nc * ca.csize) + (p - nc * ca.csize) : Nat) : Int) := by omega
      rw [harg]
      exact ih (cur + nc * ca.csize) (p - nc * ca.csize)
        (fun r hr => hb r (by simp [hr])) (by omega)

lemma getItem_ok (v : NonResidentAttributeData) (p : Nat)
    (hcs : 0 < v.clusters.csize) (hb : RunsInBounds v.clusters v.runentries)
    (hp : p < v.length) :
    v.getItem (p : Int) =
      .ok (v.clusters.vol.byteAt (virtOff v.clusters.csize v.runentries p)) := by
  simp only [NonResidentAttributeData.getItem]
  rw [if_neg (by omega)]
  have h := giLoop_ok v.clusters v.runentries 0 p hcs hb
    (by rw [← length_eq_runsLen]; exact hp)
  simpa using h

lemma getItem_oob (v : NonResidentAttributeData) (i : Int)
    (h : (v.length : Int) ≤ i ∨ i < -(v.length : Int)) :
    v.getItem i = .error .indexErr := by
  simp only [NonResidentAttributeData.getItem]
  by_cases hi : i < 0
  · rw [if_pos hi]
    apply giLoop_oob
    left
    have hlen : (0 : Int) ≤ (v.length : Int) := by positivity
    rcases h with h | h
    · omega
    · omega
  · rw [if_neg hi]
    apply giLoop_oob
    right
    rw [Nat.zero_add, ← length_eq_runsLen]
    rcases h with h | h
    · exact h
    · omega

lemma range_drop_add (m k : Nat) : (List.range (m + k)).drop m = (List.range k).map (m + ·) := by
  rw [List.range_add]
  have h := List.drop_left (List.range m) ((List.range k).map (m + ·))
  rwa [List.length_range] at h

lemma range_drop (m n : Nat) : (List.range n).drop m = (List.range (n - m)).map (m + ·) := by
  rcases le_or_lt m n with h | h
  · have e : n = m + (n - m) := by omega
    conv_lhs => rw [e]
    rw [range_drop_add]
  · rw [List.drop_eq_nil_of_le (by simp; omega)]
    have e : n - m = 0 := by omega
    rw [e]
    rfl

lemma pySliceOpt_some_none (xs : List Byte) (a : Int) (h0 : 0 ≤ a)
    (h : a.toNat ≤ xs.length) :
    pySliceOpt xs (some a) none = xs.drop a.toNat := by
  simp only [pySliceOpt, pySliceIdx]
  rw [if_neg (by omega), min_eq_left h]
  exact List.take_of_length_le (by simp)

lemma pySliceOpt_none_some (xs : List Byte) (b : Int) (h0 : 0 ≤ b)
    (h : b.toNat ≤ xs.length) :
    pySliceOpt xs none (some b) = xs.take b.toNat := by
  simp only [pySliceOpt, pySliceIdx]
  rw [if_neg (by omega), min_eq_left h]
  simp

/-- One unfolding step of `gsLoop` on a cons runlist, with the `let`
bindings of the source inlined (proved by reflexivity, so it is exactly the
function's behaviour). -/
lemma gsLoop_cons (ca : ClusterAccessor) (start stop : Int) (co nc : Nat)
    (rest : List (Nat × Nat)) (vbo : Nat) (found : Bool) (acc : List Byte) :
    NonResidentAttributeData.gsLoop ca start stop ((co, nc) :: rest) vbo found acc =
      if ¬found ∧ ¬((vbo : Int) ≤ start ∧ start < ((vbo + nc * ca.csize : Nat) : Int)) then
        NonResidentAttributeData.gsLoop ca start stop rest (vbo + nc * ca.csize) found acc
      else if ((vbo : Int) ≤ start ∧ start < ((vbo + nc * ca.csize : Nat) : Int))
          ∧ stop ≤ ((vbo + nc * ca.csize : Nat) : Int) then
        match ca.getClusters ((co : Int) + (((start - vbo).toNat / ca.csize : Nat) : Int))
            ((co : Int) + ceilDivInt (stop - vbo) ca.csize) with
        | .error e => .error e
        | .ok bs =>
          .ok (pySlice bs (start - (((start.toNat / ca.csize) * ca.csize : Nat) : Int))
            (stop - (((start.toNat / ca.csize) * ca.csize : Nat) : Int)))
      else
        match ca.getClusters (co : Int) ((co : Int) + (nc : Int)) with
        | .error e => .error e
        | .ok bs =>
          NonResidentAttributeData.gsLoop ca start stop rest (vbo + nc * ca.csize) true
            (acc ++ pySliceOpt bs
              (if (vbo : Int) ≤ start ∧ start < ((vbo + nc * ca.csize : Nat) : Int)
                then some (start - vbo) else none)
              (if stop ≤ ((vbo + nc * ca.csize : Nat) : Int) then some (stop - vbo) else none)) :=
  rfl

lemma v3_length : v3.length = 8192 := by decide

lemma ca3_csize : ca3.csize = 4096 := rfl

lemma ca3_read10 : ca3.getClusters ((10 : Nat) : Int) (((10 : Nat) : Int) + ((1 : Nat) : Int)) =
    .ok ((List.range 4096).map (fun k => vol3.byteAt (40960 + k))) := by
  have he : ((10 : Nat) : Int) + ((1 : Nat) : Int) = ((11 : Nat) : Int) := by norm_num
  rw [he, getClusters_ok ca3 10 11 (by norm_num) (by norm_num [ca3, vol3])]
  norm_num [ca3]

lemma ca3_read20 : ca3.getClusters ((20 : Nat) : Int) (((20 : Nat) : Int) + ((1 : Nat) : Int)) =
    .ok ((List.range 4096).map (fun k => vol3.byteAt (81920 + k))) := by
  have he : ((20 : Nat) : Int) + ((1 : Nat) : Int) = ((21 : Nat) : Int) := by norm_num
  rw [he, getClusters_ok ca3 20 21 (by norm_num) (by norm_num [ca3, vol3])]
  norm_num [ca3]

/-- C3: for the non-resident view with cluster size 4096 and runlist
[(lcn=10, len=1), (lcn=20, len=1)]: the length is 8192; a point read of
byte `b < 4096` returns byte `b` of cluster 10 and of `4096 ≤ b < 8192`
byte `b − 4096` of cluster 20; and the slice [4090, 4106) is exactly the
last 6 bytes of cluster 10 followed by the first 10 bytes of cluster 20. -/
theorem C3_two_run_view :
    v3.length = 8192
    ∧ (∀ b : Nat, b < 4096 → v3.getItem (b : Int) = .ok (vol3.byteAt (10 * 4096 + b)))
    ∧ (∀ b : Nat, 4096 ≤ b → b < 8192 →
        v3.getItem (b : Int) = .ok (vol3.byteAt (20 * 4096 + (b - 4096))))
    ∧ v3.getSlice 4090 4106 =
        .ok ((List.range 6).map (fun k => vol3.byteAt (10 * 4096 + 4090 + k))
          ++ (List.range 10).map (fun k => vol3.byteAt (20 * 4096 + k))) := by
  refine ⟨v3_length, ?_, ?_, ?_⟩
  · intro b hb
    have h := getItem_ok v3 b (by norm_num [v3, ca3]) (by decide) (by rw [v3_length]; omega)
    rw [h]
    simp only [v3, ca3, virtOff]
    rw [if_pos (by omega : b < 1 * 4096)]
  · intro b hb1 hb2
    have h := getItem_ok v3 b (by norm_num [v3, ca3]) (by decide) (by rw [v3_length]; omega)
    rw [h]
    simp only [v3, ca3, virtOff]
    rw [if_neg (by omega : ¬b < 1 * 4096), if_pos (by omega : b - 1 * 4096 < 1 * 4096)]
  · simp only [NonResidentAttributeData.getSlice, v3_length]
    rw [if_neg (by decide), if_neg (by norm_num), if_neg (by norm_num [pyMaxint]),
      if_neg (by norm_num [pyMaxint])]
    show NonResidentAttributeData.gsLoop ca3 4090 4106 [(10, 1), (20, 1)] 0 false [] = _
    rw [gsLoop_cons]
    simp only [ca3_csize]
    rw [if_neg (by norm_num), if_neg (by norm_num)]
    rw [ca3_read10]
    simp only []
    norm_num
    rw [pySliceOpt_some_none _ _ (by norm_num) (by simp)]
    rw [← List.map_drop, range_drop]
    rw [gsLoop_cons]
    simp only [ca3_csize]
    rw [if_neg (by norm_num), if_neg (by norm_num)]
    rw [ca3_read20]
    simp only []
    norm_num
    rw [pySliceOpt_none_some _ _ (by norm_num) (by simp)]
    rw [← List.map_take, List.take_range]
    rw [NonResidentAttributeData.gsLoop.eq_1]
    have hfun : ((fun k => vol3.byteAt (40960 + k)) ∘ fun x => Int.toNat 4090 + x) =
        (fun k => vol3.byteAt (45050 + k)) := by
      funext k
      simp only [Function.comp]
      congr 1
      omega
    rw [hfun]
    rw [show Int.toNat 4090 = 4090 from rfl, show Int.toNat 10 = 10 from rfl]
    norm_num

/-- Witness for C3: the point-read parts evaluated at bytes 100 and 5000. -/
theorem C3_witness :
    v3.getItem ((100 : Nat) : Int) = .ok (vol3.byteAt (10 * 4096 + 100))
    ∧ v3.getItem ((5000 : Nat) : Int) = .ok (vol3.byteAt (20 * 4096 + (5000 - 4096))) :=
  ⟨C3_two_run_view.2.1 100 (by norm_num), C3_two_run_view.2.2.1 5000 (by norm_num) (by norm_num)⟩

/-- C5 counterexample: on the concrete view `v6` (length 12), the point
read at 12 — outside [0, length) — fails with `IndexError`, not with the
`Overrun` kind, and the point read at −1 — also outside [0, length) —
does not fail at all (Python negative indexing). -/
theorem C5_counterexample :
    v6.getItem 12 = .error .indexErr
    ∧ v6.getItem (-1) = .ok 15
    ∧ Err.indexErr ≠ Err.overrun := by
  refine ⟨by decide, by decide, by decide⟩

/-- C5 (amended): a point read at `i ≥ length` or `i < −length` fails with
`IndexError` (not `Overrun`); a slice whose start or stop still exceeds the
length after the Python-style adjustments (a `sys.maxint` stop becomes the
length; a negative bound has the length added) fails with `IndexError`. -/
theorem C5_amended_index_error (v : NonResidentAttributeData) :
    (∀ i : Int, ((v.length : Int) ≤ i ∨ i < -(v.length : Int)) →
      v.getItem i = .error .indexErr)
    ∧ (∀ a b : Int, b ≠ pyMaxint →
        ((v.length : Int) < (if a < 0 then (v.length : Int) + a else a)
          ∨ (v.length : Int) < (if b < 0 then (v.length : Int) + b else b)) →
        v.getSlice a b = .error .indexErr) := by
  constructor
  · intro i hi
    exact getItem_oob v i hi
  · intro a b hb hout
    simp only [NonResidentAttributeData.getSlice]
    rw [if_neg hb]
    rw [if_pos (lt_max_iff.mpr hout)]

/-- Witness for C5 (amended), instantiated on `v6` at index 12 and at the
slice [0, 13). -/
theorem C5_witness :
    v6.getItem 12 = .error .indexErr ∧ v6.getSlice 0 13 = .error .indexErr := by
  constructor
  · exact (C5_amended_index_error v6).1 12 (by decide)
  · exact (C5_amended_index_error v6).2 0 13 (by decide) (by decide)

/-- C6 (code bug): on the three-run view `v6` (cluster size 4, runs at
clusters 1, 2, 3, bytes 4..15 of the volume), the slice [0, 5) returns SIX
bytes — the loop keeps appending from runs after the one containing the
stop, because `_bytes[None:negative]` keeps a positive-length prefix —
while the concatenation of the single-byte slices [i, i+1) returns the
five bytes the spec's invariant demands. -/
theorem C6_bug_eval :
    v6.getSlice 0 5 = .ok [4, 5, 6, 7, 8, 12]
    ∧ v6.getSlice 0 1 = .ok [4]
    ∧ v6.getSlice 1 2 = .ok [5]
    ∧ v6.getSlice 2 3 = .ok [6]
    ∧ v6.getSlice 3 4 = .ok [7]
    ∧ v6.getSlice 4 5 = .ok [8]
    ∧ ([4] ++ [5] ++ [6] ++ [7] ++ [8] : List Byte) ≠ [4, 5, 6, 7, 8, 12] := by
  refine ⟨by decide, by decide, by decide, by decide, by decide, by decide, by decide⟩

/-- C10: Python-style negative indexing on the non-resident view: a point
read at `−length ≤ i < 0` reads position `length + i`; negative slice
bounds have the length added before the range check; and a slice stop of
`sys.maxint` is treated as the length. -/
theorem C10_negative_indexing :
    (∀ (v : NonResidentAttributeData) (i : Int), -(v.length : Int) ≤ i → i < 0 →
      v.getItem i = v.getItem ((v.length : Int) + i))
    ∧ (∀ (v : NonResidentAttributeData) (a b : Int),
        (v.length : Int) < pyMaxint → b ≠ pyMaxint →
        -(v.length : Int) ≤ a → -(v.length : Int) ≤ b →
        v.getSlice a b = v.getSlice (if a < 0 then (v.length : Int) + a else a)
          (if b < 0 then (v.length : Int) + b else b))
    ∧ (∀ (v : NonResidentAttributeData) (a : Int), (v.length : Int) < pyMaxint →
        v.getSlice a pyMaxint = v.getSlice a (v.length : Int)) := by
  refine ⟨?_, ?_, ?_⟩
  · intro v i h1 h2
    simp only [NonResidentAttributeData.getItem]
    rw [if_pos h2, if_neg (by omega)]
  · intro v a b hL hb ha hbn
    simp only [NonResidentAttributeData.getSlice]
    split_ifs <;> first | rfl | omega
  · intro v a hL
    simp only [NonResidentAttributeData.getSlice]
    split_ifs <;> rfl

/-- Witness for C10 on `v6` (length 12): read at −1, slice [−4, −1), and
an open-ended slice. -/
theorem C10_witness :
    v6.getItem (-1) = v6.getItem ((v6.length : Int) + (-1))
    ∧ v6.getSlice (-4) (-1) =
        v6.getSlice (if (-4 : Int) < 0 then (v6.length : Int) + (-4) else (-4))
          (if (-1 : Int) < 0 then (v6.length : Int) + (-1) else (-1))
    ∧ v6.getSlice 0 pyMaxint = v6.getSlice 0 (v6.length : Int) := by
  refine ⟨?_, ?_, ?_⟩
  · exact C10_negative_indexing.1 v6 (-1) (by decide) (by decide)
  · exact C10_negative_indexing.2.1 v6 (-4) (-1) (by decide) (by decide) (by decide) (by decide)
  · exact C10_negative_indexing.2.2 v6 0 (by decide)

lemma bootProbe_overrun (buf : Except Err NonResidentAttributeData)
    (b : NonResidentAttributeData) (h1 : buf = .ok b)
    (h2 : b.getItem (-1) = .error .overrun) :
    bootProbe buf = .error .overrun := by
  simp only [bootProbe, h1, h2]

lemma bootProbe_ok (buf : Except Err NonResidentAttributeData)
    (b : NonResidentAttributeData) (byt : Byte) (h1 : buf = .ok b)
    (h2 : b.getItem (-1) = .ok byt) :
    bootProbe buf = .ok b := by
  simp only [bootProbe, h1, h2]

/-- C2: during construction (with a valid OEM id), (a) when reading the
last byte of the bootstrapped MFT view raises `Overrun`, construction
falls back to the MFTMirr buffer and continues with it; (b) when reading
the last byte of the fallback also raises `Overrun`, construction fails
with `CorruptNTFSFilesystemError`; (c) after a successful bootstrap, when
the record-16 probe raises `Overrun`, construction fails with
`CorruptNTFSFilesystemError`. -/
theorem C2_bootstrap_fallback (vol : Volume) (vbr : NTFSVBR)
    (parseMft parseMirr : RecordRunlistParse) (recParse : List Byte → Except Err Unit)
    (csArg : Option Nat) (hoem : oemId vol = ntfsBytes) :
    (∀ b b2, getMftBuffer vol (csArg.getD (vbr.bytes_per_sector * vbr.sectors_per_cluster)) vbr parseMft = .ok b →
      b.getItem (-1) = .error .overrun →
      bootProbe (getMftMirrBuffer vol (csArg.getD (vbr.bytes_per_sector * vbr.sectors_per_cluster)) vbr parseMirr) = .ok b2 →
      ntfsInit vol vbr parseMft parseMirr recParse csArg =
        initFinish vol (csArg.getD (vbr.bytes_per_sector * vbr.sectors_per_cluster)) b2 recParse)
    ∧ (∀ b bm, getMftBuffer vol (csArg.getD (vbr.bytes_per_sector * vbr.sectors_per_cluster)) vbr parseMft = .ok b →
      b.getItem (-1) = .error .overrun →
      getMftMirrBuffer vol (csArg.getD (vbr.bytes_per_sector * vbr.sectors_per_cluster)) vbr parseMirr = .ok bm →
      bm.getItem (-1) = .error .overrun →
      ntfsInit vol vbr parseMft parseMirr recParse csArg = .error .corrupt)
    ∧ (∀ b, mftBootstrap (getMftBuffer vol (csArg.getD (vbr.bytes_per_sector * vbr.sectors_per_cluster)) vbr parseMft)
        (getMftMirrBuffer vol (csArg.getD (vbr.bytes_per_sector * vbr.sectors_per_cluster)) vbr parseMirr) = .ok b →
      getRecordProbe b INODE_FIRST_USER recParse = .error .overrun →
      ntfsInit vol vbr parseMft parseMirr recParse csArg = .error .corrupt) := by
  refine ⟨?_, ?_, ?_⟩
  · intro b b2 h1 h2 hm
    unfold ntfsInit mftBootstrap
    rw [if_neg (not_not_intro hoem)]
    simp only [bootProbe_overrun _ b h1 h2, hm]
  · intro b bm h1 h2 h3 h4
    unfold ntfsInit mftBootstrap
    rw [if_neg (not_not_intro hoem)]
    simp only [bootProbe_overrun _ b h1 h2, bootProbe_overrun _ bm h3 h4]
  · intro b hboot hrec
    unfold ntfsInit
    rw [if_neg (not_not_intro hoem)]
    simp only [hboot, initFinish, hrec]

/-- Witness for C2: on `volW`, (a) a bad MFT runlist with a good MFTMirr
runlist continues construction from the mirror buffer; (b) both bad gives
`CorruptNTFSFilesystemError`; (c) a good bootstrap whose view is shorter
than 17 records gives `CorruptNTFSFilesystemError` at the record-16
probe. -/
theorem C2_witness :
    ntfsInit volW vbrW parseBad parseGood recParseOk none =
      initFinish volW ((none : Option Nat).getD (vbrW.bytes_per_sector * vbrW.sectors_per_cluster))
        bGood recParseOk
    ∧ ntfsInit volW vbrW parseBad parseBad recParseOk none = .error .corrupt
    ∧ ntfsInit volW vbrW parseGood parseGood recParseOk none = .error .corrupt := by
  refine ⟨?_, ?_, ?_⟩
  · exact (C2_bootstrap_fallback volW vbrW parseBad parseGood recParseOk none
      (by decide)).1 bBad bGood rfl (by decide) (by rfl)
  · exact (C2_bootstrap_fallback volW vbrW parseBad parseBad recParseOk none
      (by decide)).2.1 bBad bBad rfl (by decide) rfl (by decide)
  · exact (C2_bootstrap_fallback volW vbrW parseGood parseGood recParseOk none
      (by decide)).2.2 bGood (by rfl) (by decide)

/-- C4 counterexample: constructing on `volBad` fails with Python's
`AssertionError` ("Wrong OEM signature"), which is not the
`CorruptNTFSFilesystemError` kind the claim names. -/
theorem C4_counterexample :
    ntfsInit volBad vbrW parseBad parseBad recParseOk none = .error .assertionFailed
    ∧ Err.assertionFailed ≠ Err.corrupt := by
  constructor
  · rfl
  · decide

/-- C4 (amended): constructing on a volume whose bytes at offsets 3..7 are
not "NTFS" fails with `AssertionError` (the bare `assert` of the source),
not with `CorruptNTFSFilesystemError`. -/
theorem C4_amended_oem_assertion (vol : Volume) (vbr : NTFSVBR)
    (pM pMi : RecordRunlistParse) (rp : List Byte → Except Err Unit) (cso : Option Nat)
    (h : oemId vol ≠ ntfsBytes) :
    ntfsInit vol vbr pM pMi rp cso = .error .assertionFailed := by
  unfold ntfsInit
  rw [if_pos h]

/-- Witness for C4 (amended) on `volBad`. -/
theorem C4_witness :
    ntfsInit volBad vbrW parseGood parseGood recParseOk none = .error .assertionFailed :=
  C4_amended_oem_assertion volBad vbrW parseGood parseGood recParseOk none (by decide)

lemma dictInsert_keys (m : List (Nat × Nat)) (k v : Nat) :
    (dictInsert m k v).map Prod.fst =
      if m.any (fun p => p.1 == k) then m.map Prod.fst else m.map Prod.fst ++ [k] := by
  unfold dictInsert
  split_ifs with h
  · rw [List.map_map]
    apply List.map_congr_left
    intro p _
    by_cases hp : p.1 = k
    · simp only [Function.comp, if_pos hp]
      exact hp.symm
    · simp only [Function.comp, if_neg hp]
  · simp

lemma dictInsert_keys_mem (m : List (Nat × Nat)) (k v n : Nat) :
    n ∈ (dictInsert m k v).map Prod.fst ↔ n ∈ m.map Prod.fst ∨ n = k := by
  rw [dictInsert_keys]
  split_ifs with h
  · constructor
    · exact Or.inl
    · rintro (hm | rfl)
      · exact hm
      · simp only [List.any_eq_true, beq_iff_eq] at h
        obtain ⟨p, hp, hpk⟩ := h
        exact List.mem_map.mpr ⟨p, hp, hpk⟩
  · simp [List.mem_append]

lemma insertEntries_keys_mem (recOf : Nat → Nat) (es : List IndexEntry)
    (acc : List (Nat × Nat)) (n : Nat) :
    n ∈ (insertEntries recOf es acc).map Prod.fst ↔
      n ∈ acc.map Prod.fst
        ∨ ∃ e ∈ es, ¬(e.ref = INODE_ROOT ∧ e.fname = [46]) ∧ e.ref = n := by
  induction es generalizing acc with
  | nil => simp [insertEntries]
  | cons e rest ih =>
    simp only [insertEntries]
    by_cases hskip : e.ref = INODE_ROOT ∧ e.fname = [46]
    · rw [if_pos hskip, ih]
      constructor
      · rintro (ha | hex)
        · exact Or.inl ha
        · obtain ⟨x, hx, hp⟩ := hex
          exact Or.inr ⟨x, List.mem_cons_of_mem _ hx, hp⟩
      · rintro (ha | hex)
        · exact Or.inl ha
        · obtain ⟨x, hx, hp⟩ := hex
          rcases List.mem_cons.mp hx with rfl | hx2
          · exact absurd hskip hp.1
          · exact Or.inr ⟨x, hx2, hp⟩
    · rw [if_neg hskip, ih]
      constructor
      · rintro (ha | hex)
        · rcases (dictInsert_keys_mem acc e.ref (recOf e.ref) n).mp ha with hm | rfl
          · exact Or.inl hm
          · exact Or.inr ⟨e, List.mem_cons_self _ _, hskip, rfl⟩
        · obtain ⟨x, hx, hp⟩ := hex
          exact Or.inr ⟨x, List.mem_cons_of_mem _ hx, hp⟩
      · rintro (ha | hex)
        · exact Or.inl ((dictInsert_keys_mem acc e.ref (recOf e.ref) n).mpr (Or.inl ha))
        · obtain ⟨x, hx, hp⟩ := hex
          rcases List.mem_cons.mp hx with rfl | hx2
          · exact Or.inl ((dictInsert_keys_mem acc x.ref (recOf x.ref) n).mpr (Or.inr hp.2.symm))
          · exact Or.inr ⟨x, hx2, hp⟩

lemma children_ok_keys (recOf : Nat → Nat) (record : DirRecord) (es : List IndexEntry)
    (hres : get_record_children recOf record = .ok (insertEntries recOf es [])) (n : Nat) :
    (∃ l, get_record_children recOf record = .ok l ∧ n ∈ l.map Prod.fst) ↔
      ∃ e ∈ es, ¬(e.ref = INODE_ROOT ∧ e.fname = [46]) ∧ e.ref = n := by
  rw [hres]
  constructor
  · rintro ⟨l, hl, hn⟩
    injection hl with h
    subst h
    rcases (insertEntries_keys_mem recOf es [] n).mp hn with hx | hx
    · simp at hx
    · exact hx
  · intro hex
    exact ⟨_, rfl, (insertEntries_keys_mem recOf es [] n).mpr (Or.inr hex)⟩

/-- C1 counterexample: on `dirEx` the children are exactly record 7 (from
$INDEX_ALLOCATION); record 8, present only in $INDEX_ROOT, is missing,
although the claim says the entries of $INDEX_ROOT are parsed in every
case and both sources are merged. -/
theorem C1_counterexample :
    get_record_children id dirEx = .ok [(7, 7)]
    ∧ (7 : Nat) ∈ (([(7, 7)] : List (Nat × Nat)).map Prod.fst)
    ∧ (8 : Nat) ∉ (([(7, 7)] : List (Nat × Nat)).map Prod.fst) := by
  refine ⟨by decide, by decide, by decide⟩

/-- C1 (amended): obtaining a directory's children parses exactly one
source: when $INDEX_ALLOCATION exists the children are exactly the
non-self-reference entry references of its blocks and $INDEX_ROOT is not
consulted; only when $INDEX_ALLOCATION is absent are the $INDEX_ROOT
entries parsed; when neither attribute exists the lookup fails with
`AttributeNotFoundError`; non-directories yield no children. -/
theorem C1_amended_children_single_source (recOf : Nat → Nat) (record : DirRecord) :
    (record.isDir = true →
      (∀ blocks, record.indexAlloc = some blocks →
        ∀ n : Nat, (∃ l, get_record_children recOf record = .ok l ∧ n ∈ l.map Prod.fst)
          ↔ ∃ e ∈ blocks.flatten, ¬(e.ref = INODE_ROOT ∧ e.fname = [46]) ∧ e.ref = n)
      ∧ (record.indexAlloc = none →
          ∀ entries, record.indexRoot = some entries →
            ∀ n : Nat, (∃ l, get_record_children recOf record = .ok l ∧ n ∈ l.map Prod.fst)
              ↔ ∃ e ∈ entries, ¬(e.ref = INODE_ROOT ∧ e.fname = [46]) ∧ e.ref = n)
      ∧ (record.indexAlloc = none → record.indexRoot = none →
          get_record_children recOf record = .error .attributeNotFound))
    ∧ (record.isDir = false → get_record_children recOf record = .ok []) := by
  constructor
  · intro hdir
    refine ⟨?_, ?_, ?_⟩
    · intro blocks hblocks n
      exact children_ok_keys recOf record blocks.flatten
        (by simp [get_record_children, hdir, hblocks]) n
    · intro hnone entries hroot n
      exact children_ok_keys recOf record entries
        (by simp [get_record_children, hdir, hnone, hroot]) n
    · intro hnone hroot
      simp [get_record_children, hdir, hnone, hroot]
  · intro hfile
    simp [get_record_children, hfile]

/-- Witness for C1 (amended) on `dirEx` (alloc branch, reference 7) and on
a record with neither index attribute. -/
theorem C1_witness :
    ((∃ l, get_record_children id dirEx = .ok l ∧ (7 : Nat) ∈ l.map Prod.fst)
      ↔ ∃ e ∈ ([[⟨7, [97]⟩]] : List (List IndexEntry)).flatten,
          ¬(e.ref = INODE_ROOT ∧ e.fname = [46]) ∧ e.ref = 7)
    ∧ get_record_children id ⟨true, none, none⟩ = .error .attributeNotFound := by
  constructor
  · exact ((C1_amended_children_single_source id dirEx).1 rfl).1 [[⟨7, [97]⟩]] rfl 7
  · exact ((C1_amended_children_single_source id ⟨true, none, none⟩).1 rfl).2.2 rfl rfl

lemma pyLower_pyUpper (b : Nat) : pyLowerByte (pyUpperByte b) = pyLowerByte b := by
  unfold pyLowerByte pyUpperByte
  split_ifs <;> omega

lemma pyLower_pyLower (b : Nat) : pyLowerByte (pyLowerByte b) = pyLowerByte b := by
  unfold pyLowerByte
  split_ifs <;> omega

lemma strLower_strUpper (s : Str) : strLower (strUpper s) = strLower s := by
  unfold strLower strUpper
  rw [List.map_map]
  exact List.map_congr_left fun b _ => pyLower_pyUpper b

lemma strLower_strLower (s : Str) : strLower (strLower s) = strLower s := by
  unfold strLower
  rw [List.map_map]
  exact List.map_congr_left fun b _ => pyLower_pyLower b

lemma find?_append_cons {α : Type} (p : α → Bool) (pre : List α) (c : α) (post : List α)
    (hpre : ∀ x ∈ pre, p x = false) (hc : p c = true) :
    (pre ++ c :: post).find? p = some c := by
  induction pre with
  | nil => simp [List.find?_cons_of_pos _ hc]
  | cons a rest ih =>
    have ha := hpre a (by simp)
    rw [List.cons_append, List.find?_cons_of_neg _ (by simp [ha])]
    exact ih fun x hx => hpre x (by simp [hx])

lemma get_child_error (children : List NEntry) (name : Str) (e : Err)
    (h : get_child children name = .error e) : e = .childNotFound := by
  simp only [get_child] at h
  rcases hf : children.find? (fun c => c.filenames.any fun fn => strLower fn == strLower name)
    with _ | c
  · rw [hf] at h
    cases h
    rfl
  · rw [hf] at h
    cases h

lemma get_child_first (children pre post : List NEntry) (c : NEntry) (name : Str)
    (hc : children = pre ++ c :: post)
    (hmatch : ∃ fn ∈ c.filenames, strLower fn = strLower name)
    (hpre : ∀ c2 ∈ pre, ∀ fn ∈ c2.filenames, strLower fn ≠ strLower name) :
    get_child children name = .ok c := by
  simp only [get_child]
  have hfind : children.find? (fun ch => ch.filenames.any fun fn => strLower fn == strLower name)
      = some c := by
    rw [hc]
    apply find?_append_cons
    · intro x hx
      rw [List.any_eq_false]
      intro fn hfn
      simp only [beq_iff_eq]
      exact hpre x hx fn hfn
    · rw [List.any_eq_true]
      obtain ⟨fn, hfn, he⟩ := hmatch
      exact ⟨fn, hfn, by simp [he]⟩
  simp only [hfind]

/-- C7 counterexample: `[65]` ("A") is one of `e2C7`'s filenames, yet both
the uppercase and the lowercase lookup return the FIRST child `e1C7`
(filename "a"), not `e2C7` — the claim's consequence fails when an earlier
child carries a case-insensitively equal filename. -/
theorem C7_counterexample :
    (get_child [e1C7, e2C7] (strUpper [65])).map NEntry.tag = .ok 1
    ∧ (get_child [e1C7, e2C7] (strLower [65])).map NEntry.tag = .ok 1
    ∧ NEntry.tag e1C7 ≠ NEntry.tag e2C7
    ∧ [65] ∈ NEntry.filenames e2C7
    ∧ e2C7 ∈ [e1C7, e2C7] := by
  refine ⟨rfl, rfl, by decide, by decide, by simp⟩

/-- C7 (amended): `get_child` compares the name case-insensitively (ASCII
lower) against every filename of every child and returns the first child
with a matching filename; it fails `ChildNotFoundError` exactly when no
child matches; uppercase and lowercase lookups always agree, and they
return the child `c` itself whenever no earlier child also carries a
case-insensitively equal filename. -/
theorem C7_amended_case_insensitive_lookup (children : List NEntry) :
    (∀ (name : Str) (c : NEntry), get_child children name = .ok c →
      c ∈ children ∧ ∃ fn ∈ c.filenames, strLower fn = strLower name)
    ∧ (∀ name : Str, get_child children name = .error .childNotFound ↔
        ∀ c ∈ children, ∀ fn ∈ c.filenames, strLower fn ≠ strLower name)
    ∧ (∀ n : Str, get_child children (strUpper n) = get_child children (strLower n))
    ∧ (∀ (pre post : List NEntry) (c : NEntry) (n : Str), children = pre ++ c :: post →
        (∃ fn ∈ c.filenames, strLower fn = strLower n) →
        (∀ c2 ∈ pre, ∀ fn ∈ c2.filenames, strLower fn ≠ strLower n) →
        get_child children (strUpper n) = .ok c ∧ get_child children (strLower n) = .ok c) := by
  refine ⟨?_, ?_, ?_, ?_⟩
  · intro name c h
    simp only [get_child] at h
    rcases hf : children.find? (fun c => c.filenames.any fun fn => strLower fn == strLower name)
      with _ | c2
    · simp only [hf] at h
      cases h
    · simp only [hf] at h
      injection h with h2
      subst h2
      refine ⟨List.mem_of_find?_eq_some hf, ?_⟩
      have hp := List.find?_some hf
      rw [List.any_eq_true] at hp
      obtain ⟨fn, hfn, he⟩ := hp
      exact ⟨fn, hfn, by simpa using he⟩
  · intro name
    simp only [get_child]
    rcases hf : children.find? (fun c => c.filenames.any fun fn => strLower fn == strLower name)
      with _ | c2
    · simp only [hf]
      rw [List.find?_eq_none] at hf
      constructor
      · intro _ c hc fn hfn he
        have hx := hf c hc
        rw [List.any_eq_true] at hx
        exact hx ⟨fn, hfn, by simp [he]⟩
      · intro _
        trivial
    · simp only [hf]
      constructor
      · intro h
        cases h
      · intro hall
        exfalso
        have hp := List.find?_some hf
        have hmem := List.mem_of_find?_eq_some hf
        rw [List.any_eq_true] at hp
        obtain ⟨fn, hfn, he⟩ := hp
        exact hall c2 hmem fn hfn (by simpa using he)
  · intro n
    simp only [get_child]
    rw [strLower_strUpper, strLower_strLower]
  · intro pre post c n hc hmatch hpre
    constructor
    · apply get_child_first children pre post c (strUpper n) hc
      · rw [strLower_strUpper]
        exact hmatch
      · rw [strLower_strUpper]
        exact hpre
    · apply get_child_first children pre post c (strLower n) hc
      · rw [strLower_strLower]
        exact hmatch
      · rw [strLower_strLower]
        exact hpre

/-- Witness for C7 (amended) on the two-child directory: looking up "A"
finds the first matching child, and with no earlier match the lookups
return the child itself (here `e2C7` in a singleton list). -/
theorem C7_witness :
    get_child [e2C7] (strUpper [65]) = .ok e2C7
    ∧ get_child [e2C7] (strLower [65]) = .ok e2C7 :=
  (C7_amended_case_insensitive_lookup [e2C7]).2.2.2 [] [] e2C7 [65] rfl
    (by decide) (by intro c2 hc2; cases hc2)

lemma gpeGo_zero (d : NEntry) (path : Str) : gpeGo 0 d path = .error .childNotFound := rfl

lemma gpeGo_succ (fuel : Nat) (d : NEntry) (path : Str) :
    gpeGo (fuel + 1) d path =
      match split_path path with
      | .error e => .error e
      | .ok (imm, slash, rest) =>
        if slash = [] then get_child d.children path
        else if rest = [] then .ok d
        else
          match get_child d.children imm with
          | .error e => .error e
          | .ok child =>
            if child.isDir then gpeGo fuel child rest
            else .error .dirDoesNotExist := rfl

lemma pyPartition_mem (s : Str) (sep : Nat) (h : sep ∈ s) :
    (pyPartition s sep).2.1 = [sep]
    ∧ s = (pyPartition s sep).1 ++ sep :: (pyPartition s sep).2.2 := by
  induction s with
  | nil => cases h
  | cons c rest ih =>
    by_cases hc : c = sep
    · subst hc
      simp [pyPartition]
    · have hrest : sep ∈ rest := by
        rcases List.mem_cons.mp h with h1 | h1
        · exact absurd h1.symm hc
        · exact h1
      obtain ⟨h1, h2⟩ := ih hrest
      refine ⟨?_, ?_⟩
      · simp only [pyPartition, if_neg hc]
        exact h1
      · simp only [pyPartition, if_neg hc, List.cons_append]
        rw [← h2]

lemma pyPartition_at_sep (c t : Str) (sep : Nat) (h : sep ∉ c) :
    pyPartition (c ++ sep :: t) sep = (c, [sep], t) := by
  induction c with
  | nil => simp [pyPartition]
  | cons a rest ih =>
    have ha : a ≠ sep := fun he => h (by simp [he])
    have hr : sep ∉ rest := fun hm => h (by simp [hm])
    simp only [List.cons_append, pyPartition, if_neg ha, List.append_eq]
    rw [ih hr]

lemma split_path_error (path : Str) (e : Err) (h : split_path path = .error e) :
    e = .unsupportedPath ∧ FORWARD_SLASH ∈ path ∧ BACKSLASH ∈ path := by
  unfold split_path at h
  by_cases h92 : BACKSLASH ∈ path
  · rw [if_pos h92] at h
    by_cases h47 : FORWARD_SLASH ∈ path
    · rw [if_pos h47] at h
      cases h
      exact ⟨rfl, h47, h92⟩
    · rw [if_neg h47] at h
      cases h
  · rw [if_neg h92] at h
    by_cases h47 : FORWARD_SLASH ∈ path
    · rw [if_pos h47, if_neg h92] at h
      cases h
    · rw [if_neg h47] at h
      cases h

lemma split_path_ok (path imm slash rest : Str)
    (h : split_path path = .ok (imm, slash, rest)) (hslash : slash ≠ []) :
    (∀ x ∈ rest, x ∈ path) ∧ rest.length < path.length := by
  have main : path = imm ++ slash.headD 0 :: rest := by
    unfold split_path at h
    by_cases h92 : BACKSLASH ∈ path
    · rw [if_pos h92] at h
      by_cases h47 : FORWARD_SLASH ∈ path
      · rw [if_pos h47] at h
        cases h
      · rw [if_neg h47] at h
        injection h with hp
        obtain ⟨hs, hd⟩ := pyPartition_mem path BACKSLASH h92
        rw [hp] at hs hd
        simp only [] at hs hd
        rw [hs]
        simpa using hd
    · rw [if_neg h92] at h
      by_cases h47 : FORWARD_SLASH ∈ path
      · rw [if_pos h47, if_neg h92] at h
        injection h with hp
        obtain ⟨hs, hd⟩ := pyPartition_mem path FORWARD_SLASH h47
        rw [hp] at hs hd
        simp only [] at hs hd
        rw [hs]
        simpa using hd
      · rw [if_neg h47] at h
        injection h with hp
        obtain ⟨he1, he2, he3⟩ : path = imm ∧ [] = slash ∧ [] = rest := by simpa using hp
        exact absurd he2.symm hslash
  constructor
  · intro x hx
    rw [main]
    simp [hx]
  · conv_rhs => rw [main]
    simp only [List.length_append, List.length_cons]
    omega

lemma gpeGo_fuel : ∀ (f g : Nat) (d : NEntry) (path : Str),
    path.length < f → path.length < g → gpeGo f d path = gpeGo g d path := by
  intro f
  induction f with
  | zero =>
    intro g d path hf
    omega
  | succ f ih =>
    intro g d path hf hg
    cases g with
    | zero => omega
    | succ g =>
      rw [gpeGo_succ, gpeGo_succ]
      rcases hsp : split_path path with e | t
      · rfl
      · obtain ⟨imm, slash, rest⟩ := t
        simp only []
        by_cases h1 : slash = []
        · simp [h1]
        · rw [if_neg h1, if_neg h1]
          by_cases h2 : rest = []
          · rw [if_pos h2, if_pos h2]
          · rw [if_neg h2, if_neg h2]
            rcases hgc : get_child d.children imm with e | child
            · rfl
            · simp only []
              by_cases hd : child.isDir = true
              · rw [if_pos hd, if_pos hd]
                have hlen := (split_path_ok path imm slash rest hsp h1).2
                exact ih g child rest (by omega) (by omega)
              · rw [if_neg hd, if_neg hd]

lemma gpeGo_not_unsupported : ∀ (fuel : Nat) (d : NEntry) (path : Str),
    ¬(FORWARD_SLASH ∈ path ∧ BACKSLASH ∈ path) →
    gpeGo fuel d path ≠ .error .unsupportedPath := by
  intro fuel
  induction fuel with
  | zero =>
    intro d path h hcon
    rw [gpeGo_zero] at hcon
    exact Err.noConfusion (Except.error.inj hcon)
  | succ fuel ih =>
    intro d path h hcon
    rw [gpeGo_succ] at hcon
    rcases hsp : split_path path with e | t
    · simp only [hsp] at hcon
      obtain ⟨he, h47, h92⟩ := split_path_error path e hsp
      exact h ⟨h47, h92⟩
    · obtain ⟨imm, slash, rest⟩ := t
      simp only [hsp] at hcon
      by_cases h1 : slash = []
      · rw [if_pos h1] at hcon
        have h2 := get_child_error _ _ _ hcon
        cases h2
      · rw [if_neg h1] at hcon
        by_cases h2 : rest = []
        · rw [if_pos h2] at hcon
          cases hcon
        · rw [if_neg h2] at hcon
          rcases hgc : get_child d.children imm with e | child
          · simp only [hgc] at hcon
            have h3 := get_child_error _ _ _ hgc
            subst h3
            exact Err.noConfusion (Except.error.inj hcon)
          · simp only [hgc] at hcon
            by_cases hd : child.isDir = true
            · rw [if_pos hd] at hcon
              have hsub := (split_path_ok path imm slash rest hsp h1).1
              apply ih child rest _ hcon
              rintro ⟨ha, hb⟩
              exact h ⟨hsub _ ha, hsub _ hb⟩
            · rw [if_neg hd] at hcon
              exact Err.noConfusion (Except.error.inj hcon)

lemma joinSep_mem (sep : Nat) : ∀ (comps : List Str) (x : Nat), x ∈ joinSep sep comps →
    (∃ c ∈ comps, x ∈ c) ∨ x = sep := by
  intro comps
  induction comps with
  | nil =>
    intro x hx
    cases hx
  | cons c rest ih =>
    intro x hx
    cases rest with
    | nil => exact Or.inl ⟨c, by simp, hx⟩
    | cons c2 rest2 =>
      simp only [joinSep] at hx
      rcases List.mem_append.mp hx with h1 | h1
      · exact Or.inl ⟨c, by simp, h1⟩
      · rcases List.mem_cons.mp h1 with h2 | h2
        · exact Or.inr h2
        · rcases ih x h2 with ⟨c3, hc3, hxc⟩ | h3
          · exact Or.inl ⟨c3, List.mem_cons_of_mem _ hc3, hxc⟩
          · exact Or.inr h3

lemma joinSep_eq_nil (sep : Nat) (c2 : Str) (rest : List Str) :
    joinSep sep (c2 :: rest) = [] ↔ (c2 = [] ∧ rest = []) := by
  cases rest with
  | nil => simp [joinSep]
  | cons c3 r => simp [joinSep]

/-- C8: `entry_at` fails with `UnsupportedPathError` exactly when the path
contains both a forward slash and a backslash; and resolving the same
component list joined with '/' or with '\' yields the same result. -/
theorem C8_path_separator_handling :
    (∀ (d : NEntry) (path : Str),
      get_path_entry d path = .error .unsupportedPath ↔
        (FORWARD_SLASH ∈ path ∧ BACKSLASH ∈ path))
    ∧ (∀ (d : NEntry) (comps : List Str),
        (∀ c ∈ comps, FORWARD_SLASH ∉ c ∧ BACKSLASH ∉ c) →
        get_path_entry d (joinSep FORWARD_SLASH comps) =
          get_path_entry d (joinSep BACKSLASH comps)) := by
  constructor
  · intro d path
    constructor
    · intro h
      by_contra hmix
      exact gpeGo_not_unsupported _ d path hmix h
    · rintro ⟨h47, h92⟩
      unfold get_path_entry
      rw [gpeGo_succ]
      have hsp : split_path path = .error .unsupportedPath := by
        unfold split_path
        rw [if_pos h92, if_pos h47]
      simp only [hsp]
  · intro d comps
    induction comps generalizing d with
    | nil =>
      intro _
      rfl
    | cons c rest ih =>
      intro hcl
      cases rest with
      | nil => rfl
      | cons c2 rest2 =>
        have hfree := hcl c (by simp)
        have h92notin : BACKSLASH ∉ joinSep FORWARD_SLASH (c :: c2 :: rest2) := by
          intro hmem
          rcases joinSep_mem _ _ _ hmem with ⟨cx, hcx, hxc⟩ | he
          · exact (hcl cx hcx).2 hxc
          · exact absurd he (by decide)
        have h47notin : FORWARD_SLASH ∉ joinSep BACKSLASH (c :: c2 :: rest2) := by
          intro hmem
          rcases joinSep_mem _ _ _ hmem with ⟨cx, hcx, hxc⟩ | he
          · exact (hcl cx hcx).1 hxc
          · exact absurd he (by decide)
        have h47in : FORWARD_SLASH ∈ joinSep FORWARD_SLASH (c :: c2 :: rest2) := by
          simp [joinSep]
        have h92in : BACKSLASH ∈ joinSep BACKSLASH (c :: c2 :: rest2) := by
          simp [joinSep]
        have hsp47 : split_path (joinSep FORWARD_SLASH (c :: c2 :: rest2)) =
            .ok (c, [FORWARD_SLASH], joinSep FORWARD_SLASH (c2 :: rest2)) := by
          unfold split_path
          rw [if_neg h92notin, if_pos h47in, if_neg h92notin]
          simp only [joinSep]
          rw [pyPartition_at_sep c _ _ hfree.1]
        have hsp92 : split_path (joinSep BACKSLASH (c :: c2 :: rest2)) =
            .ok (c, [BACKSLASH], joinSep BACKSLASH (c2 :: rest2)) := by
          unfold split_path
          rw [if_pos h92in, if_neg h47notin]
          simp only [joinSep]
          rw [pyPartition_at_sep c _ _ hfree.2]
        unfold get_path_entry
        rw [gpeGo_succ, gpeGo_succ]
        simp only [hsp47, hsp92]
        rw [if_neg (by simp : ¬([FORWARD_SLASH] : Str) = []),
          if_neg (by simp : ¬([BACKSLASH] : Str) = [])]
        by_cases hrest : joinSep FORWARD_SLASH (c2 :: rest2) = []
        · have hrest92 : joinSep BACKSLASH (c2 :: rest2) = [] := by
            rw [joinSep_eq_nil] at hrest ⊢
            exact hrest
          rw [if_pos hrest, if_pos hrest92]
        · have hrest92 : joinSep BACKSLASH (c2 :: rest2) ≠ [] := by
            intro hx
            exact hrest ((joinSep_eq_nil _ _ _).mpr ((joinSep_eq_nil _ _ _).mp hx))
          rw [if_neg hrest, if_neg hrest92]
          rcases hgc : get_child d.children c with e | child
          · simp only [hgc]
          · simp only [hgc]
            by_cases hd : child.isDir = true
            · rw [if_pos hd, if_pos hd]
              have ht := ih child (fun cx hcx => hcl cx (by simp [hcx]))
              have hlen47 : (joinSep FORWARD_SLASH (c2 :: rest2)).length <
                  (joinSep FORWARD_SLASH (c :: c2 :: rest2)).length := by
                simp only [joinSep, List.length_append, List.length_cons]
                omega
              have hlen92 : (joinSep BACKSLASH (c2 :: rest2)).length <
                  (joinSep BACKSLASH (c :: c2 :: rest2)).length := by
                simp only [joinSep, List.length_append, List.length_cons]
                omega
              calc gpeGo (joinSep FORWARD_SLASH (c :: c2 :: rest2)).length child
                      (joinSep FORWARD_SLASH (c2 :: rest2))
                  = gpeGo ((joinSep FORWARD_SLASH (c2 :: rest2)).length + 1) child
                      (joinSep FORWARD_SLASH (c2 :: rest2)) :=
                    gpeGo_fuel _ _ _ _ (by omega) (by omega)
                _ = get_path_entry child (joinSep FORWARD_SLASH (c2 :: rest2)) := rfl
                _ = get_path_entry child (joinSep BACKSLASH (c2 :: rest2)) := ht
                _ = gpeGo ((joinSep BACKSLASH (c2 :: rest2)).length + 1) child
                      (joinSep BACKSLASH (c2 :: rest2)) := rfl
                _ = gpeGo (joinSep BACKSLASH (c :: c2 :: rest2)).length child
                      (joinSep BACKSLASH (c2 :: rest2)) :=
                    gpeGo_fuel _ _ _ _ (by omega) (by omega)
            · rw [if_neg hd, if_neg hd]

/-- Witness for C8: resolving the components ["a", "b"] with '/' and with
'\' from `dTop` gives the same result. -/
theorem C8_witness :
    get_path_entry dTop (joinSep FORWARD_SLASH [[97], [98]]) =
      get_path_entry dTop (joinSep BACKSLASH [[97], [98]]) :=
  C8_path_separator_handling.2 dTop [[97], [98]] (by decide)

/-- C9 counterexample: on `dEx9` the empty path does NOT resolve to the
directory itself — it is looked up as a child name and fails
`ChildNotFoundError`. -/
theorem C9_counterexample :
    get_path_entry dEx9 [] = .error .childNotFound
    ∧ get_path_entry dEx9 [] ≠ .ok dEx9 := by
  constructor
  · rfl
  · intro h
    rw [show get_path_entry dEx9 [] = .error .childNotFound from rfl] at h
    exact Except.noConfusion h

/-- C9 (amended): `entry_at` resolves a lone separator to the directory
itself and, in general, returns the directory it was called on whenever
the path splits with a separator present and an empty remainder; the
empty path is instead passed to `get_child` as a child name (failing
`ChildNotFoundError` when no child has an empty filename). -/
theorem C9_amended_trailing_separator (d : NEntry) :
    get_path_entry d [FORWARD_SLASH] = .ok d
    ∧ get_path_entry d [BACKSLASH] = .ok d
    ∧ (∀ (path imm slash rest : Str), split_path path = .ok (imm, slash, rest) →
        slash ≠ [] → rest = [] → get_path_entry d path = .ok d)
    ∧ get_path_entry d [] = get_child d.children [] := by
  refine ⟨rfl, rfl, ?_, rfl⟩
  intro path imm slash rest hsp hslash hrest
  unfold get_path_entry
  rw [gpeGo_succ]
  simp only [hsp]
  rw [if_neg hslash, if_pos hrest]

/-- Witness for C9 (amended): the path "a/" (trailing separator) resolves
to the directory `dEx9` itself. -/
theorem C9_witness :
    get_path_entry dEx9 [97, FORWARD_SLASH] = .ok dEx9 :=
  (C9_amended_trailing_separator dEx9).2.2.1 [97, FORWARD_SLASH] [97] [FORWARD_SLASH] []
    rfl (by decide) rfl
